import Mathlib

/-!
Verification of the audio-translation streaming pipeline.

The development shallowly embeds the TypeScript source:
* the Web-Speech-API view (`App.tsx`, here `AppState` with `onInterim`,
  `onFinal`, `process2Step`, `handleStartStop`),
* the ElevenLabs scribe hook (`useElevenLabsScribe.ts`, here
  `scribeOnInterim`, `scribeOnCommitted`, `scribeDisconnect`),
* the iPhone view's translation/playback pipeline
  (`IphoneTranslateView.tsx`, here `PipeState`/`stepPipe` and
  `SpeakState`/`speakStep`),
* token and password handling (`useElevenLabs.ts` and the password
  form, here `getTokenM`, `startSessionM`, `handlePasswordSubmitM`,
  `handleLogoutM`).

Text is modelled as `List Char`; JavaScript's `trim`,
`split(/\s+/).filter(w => w.length > 0)`, `startsWith`, `substring`
and `join(' ')` become `jsTrim`, `splitWords`, `jsStartsWith`,
`List.drop` and `joinWords`.
-/

/-- Whitespace test, the model of the regexp class `\s`. -/
def wsChar (c : Char) : Bool := c.isWhitespace

/-- Model of JavaScript `String.prototype.trim`. -/
def jsTrim (s : List Char) : List Char :=
  ((s.dropWhile wsChar).reverse.dropWhile wsChar).reverse

/-- Model of `text.split(/\s+/).filter(w => w.length > 0)`:
split at every whitespace character and discard empty fragments. -/
def splitWords (s : List Char) : List (List Char) :=
  (s.splitOnP wsChar).filter (fun w => w.length > 0)

/-- Model of `words.join(' ')`. -/
def joinWords : List (List Char) → List Char
  | [] => []
  | [w] => w
  | w :: ws => w ++ ' ' :: joinWords ws

/-- Model of JavaScript `trim` on packed strings, via `jsTrim`. -/
def jsTrimS (s : String) : String := String.mk (jsTrim s.data)

/-- Model of `a.startsWith(b)`. -/
def jsStartsWith (s q : List Char) : Bool := s.take q.length == q

/-- The constant `WORDS_PER_PHRASE = 10` (both in `App.tsx` and in
`useElevenLabsScribe.ts`). -/
def WORDS_PER_PHRASE : Nat := 10

/-- The state of the Web-Speech-API view (`App.tsx`): the three
arrays, the display values, the recognition flag and the four refs. -/
structure AppState where
  isListening : Bool
  wordArray : List (List Char)
  phraseArray : List (List Char)
  translatedArray : List (List Char)
  currentTranslation : List Char
  recentTranslations : List (List Char)
  lastInterim : List Char
  processedWordCount : Nat
  allProcessedText : List Char
  isTranslating : Bool
  isSpeaking : Bool
  deriving Repr, DecidableEq

/-- The initial component state of `App.tsx`. -/
def initAppState : AppState :=
  { isListening := false
    wordArray := []
    phraseArray := []
    translatedArray := []
    currentTranslation := []
    recentTranslations := []
    lastInterim := []
    processedWordCount := 0
    allProcessedText := []
    isTranslating := false
    isSpeaking := false }

/-- The final-transcript branch of `recognition.onresult`
(`App.tsx` lines 128-156): strip the longest already-processed
leading text (the retained interim, else the full processed ledger),
push the remaining words onto `wordArray`, extend the ledger, and
reset the interim tracking. -/
def onFinal (s : AppState) (finalTranscript : List Char) : AppState :=
  let transcript := jsTrim finalTranscript
  if transcript.length > 0 then
    let textToAdd :=
      if s.lastInterim.length > 0 && jsStartsWith transcript s.lastInterim then
        jsTrim (transcript.drop s.lastInterim.length)
      else if s.allProcessedText.length > 0 &&
          jsStartsWith transcript s.allProcessedText then
        jsTrim (transcript.drop s.allProcessedText.length)
      else transcript
    let s1 :=
      if textToAdd.length > 0 then
        { s with
            wordArray := s.wordArray ++ splitWords textToAdd
            allProcessedText := jsTrim (s.allProcessedText ++ ' ' :: textToAdd) }
      else s
    { s1 with lastInterim := [], processedWordCount := 0 }
  else s

/-- The interim-transcript branch of `recognition.onresult`
(`App.tsx` lines 157-179): if at least `WORDS_PER_PHRASE` words
beyond `processedWordCount` are available, emit exactly one group of
`WORDS_PER_PHRASE` words directly to `phraseArray`, extend the
ledger, advance the counter, and retain the full interim text. -/
def onInterim (s : AppState) (interimTranscript : List Char) : AppState :=
  let currentInterim := jsTrim interimTranscript
  if currentInterim.length > 0 then
    let words := splitWords currentInterim
    let unprocessedWordCount := words.length - s.processedWordCount
    if unprocessedWordCount ≥ WORDS_PER_PHRASE then
      let phraseWords := (words.drop s.processedWordCount).take WORDS_PER_PHRASE
      let phrase := joinWords phraseWords
      { s with
          phraseArray := s.phraseArray ++ [phrase]
          allProcessedText := jsTrim (s.allProcessedText ++ ' ' :: phrase)
          processedWordCount := s.processedWordCount + WORDS_PER_PHRASE
          lastInterim := currentInterim }
    else s
  else s

/-- One run of the `PROCESS 2` effect (`App.tsx` lines 216-226):
when `wordArray` holds at least `WORDS_PER_PHRASE` words, move the
first `WORDS_PER_PHRASE` of them into `phraseArray` as one phrase. -/
def process2Step (s : AppState) : AppState :=
  if s.wordArray.length ≥ WORDS_PER_PHRASE then
    { s with
        wordArray := s.wordArray.drop WORDS_PER_PHRASE
        phraseArray := s.phraseArray ++ [joinWords (s.wordArray.take WORDS_PER_PHRASE)] }
  else s

/-- Fuelled iteration of `process2Step`; in React the effect re-runs
after every `wordArray` update until fewer than `WORDS_PER_PHRASE`
words remain. -/
def process2Fuel : Nat → AppState → AppState
  | 0, s => s
  | k + 1, s =>
    if s.wordArray.length ≥ WORDS_PER_PHRASE then process2Fuel k (process2Step s)
    else s

/-- The `PROCESS 2` effect iterated to its fixpoint. -/
def process2All (s : AppState) : AppState := process2Fuel s.wordArray.length s

/-- Model of `handleStartStop` in `App.tsx` (lines 311-328): when listening,
only the listening flag is cleared; when idle, every array and ref is
reset and listening begins. -/
def handleStartStop (s : AppState) : AppState :=
  if s.isListening then
    { s with isListening := false }
  else
    { isListening := true
      wordArray := []
      phraseArray := []
      translatedArray := []
      currentTranslation := []
      recentTranslations := []
      lastInterim := []
      processedWordCount := 0
      allProcessedText := []
      isTranslating := false
      isSpeaking := false }

/-- Model of `onPartialTranscript` in `useElevenLabsScribe.ts` (lines 34-59).
State is the `processedWordCountRef` counter; the result is the new
counter together with the list of phrases handed to `onPhrase`
(at most one per event: the code uses `if`, not a loop). -/
def scribeOnInterim (c : Nat) (text : List Char) : Nat × List (List Char) :=
  let t := jsTrim text
  if t.length > 0 then
    let words := splitWords t
    let unprocessedWordCount := words.length - c
    if unprocessedWordCount ≥ WORDS_PER_PHRASE then
      let phraseWords := (words.drop c).take WORDS_PER_PHRASE
      (c + WORDS_PER_PHRASE, [joinWords phraseWords])
    else (c, [])
  else (c, [])

/-- Model of `onCommittedTranscript` in `useElevenLabsScribe.ts` (lines
61-79): emit every word past the counter as one single phrase (of any
size), then reset the counter to zero. -/
def scribeOnCommitted (c : Nat) (text : List Char) : Nat × List (List Char) :=
  let t := jsTrim text
  if t.length > 0 then
    let words := splitWords t
    let emitted :=
      if words.length > c then
        let remainingPhrase := joinWords (words.drop c)
        if remainingPhrase.length > 0 then [remainingPhrase] else []
      else []
    (0, emitted)
  else (c, [])

/-- Model of `disconnect` in `useElevenLabsScribe.ts` (lines 99-103): the
scribe connection is closed and the counter reset; no phrase is
handed to `onPhrase`. -/
def scribeDisconnect (_c : Nat) : Nat × List (List Char) := (0, [])

/-- The playback (speech-synthesis) state of `PROCESS 4`
(`App.tsx` lines 264-309; identically `IphoneTranslateView.tsx`
lines 148-190). `timeoutArmed` is true while the safety timeout is
pending (neither fired nor cleared); `utterancesPending` counts
utterances handed to the provider whose end/error signal has not yet
been delivered. -/
structure SpeakState where
  translatedArray : List String
  currentTranslation : String
  isSpeaking : Bool
  timeoutArmed : Bool
  utterancesPending : Nat
  deriving Repr, DecidableEq

/-- Model of `speakNextPhrase`: guarded by a non-empty queue and a free
speaking lock, it displays the head, acquires the lock, hands an
utterance to the provider and arms the 15-second safety timeout. -/
def speakStart (s : SpeakState) : SpeakState :=
  if s.translatedArray.length > 0 && !s.isSpeaking then
    { s with
        currentTranslation := s.translatedArray.headD ""
        isSpeaking := true
        timeoutArmed := true
        utterancesPending := s.utterancesPending + 1 }
  else s

/-- Completion signals that can reach the playback stage: the safety
timeout firing, or the provider's `onend` / `onerror` callback. -/
inductive SpeakEv where
  | timeoutFire
  | onEnd
  | onError
  deriving Repr, DecidableEq

/-- The three completion handlers of `speakNextPhrase`. The timeout
callback (if still armed) releases the lock and removes the head;
`onend` and `onerror` clear the timeout, release the lock and remove
the head — they run whether or not the timeout has already fired. -/
def speakStep (s : SpeakState) : SpeakEv → SpeakState
  | .timeoutFire =>
    if s.timeoutArmed then
      { s with
          isSpeaking := false
          translatedArray := s.translatedArray.drop 1
          timeoutArmed := false }
    else s
  | .onEnd =>
    if s.utterancesPending > 0 then
      { s with
          timeoutArmed := false
          isSpeaking := false
          translatedArray := s.translatedArray.drop 1
          utterancesPending := s.utterancesPending - 1 }
    else s
  | .onError =>
    if s.utterancesPending > 0 then
      { s with
          timeoutArmed := false
          isSpeaking := false
          translatedArray := s.translatedArray.drop 1
          utterancesPending := s.utterancesPending - 1 }
    else s

/-- A run of playback completion events. -/
def speakRun (s : SpeakState) : List SpeakEv → SpeakState
  | [] => s
  | e :: es => speakRun (speakStep s e) es

/-- The iPhone view's pipeline state (`IphoneTranslateView.tsx`):
the two queues, the display values, the two in-flight locks, the
connection flag, and a ghost counter `outstandingT` of translation
fetches issued but not yet resolved. -/
structure PipeState where
  isConnected : Bool
  phraseArray : List String
  translatedArray : List String
  currentTranslation : String
  recentTranslations : List String
  isTranslating : Bool
  isSpeaking : Bool
  outstandingT : Nat
  deriving Repr, DecidableEq

/-- The initial pipeline state after a successful connect. -/
def initPipe : PipeState :=
  { isConnected := true
    phraseArray := []
    translatedArray := []
    currentTranslation := ""
    recentTranslations := []
    isTranslating := false
    isSpeaking := false
    outstandingT := 0 }

/-- Model of `[...prev, t].slice(-3)`: the rolling window of the last three
completed translations. -/
def lastThree (l : List String) (t : String) : List String :=
  let r := l ++ [t]
  r.drop (r.length - 3)

/-- Pipeline events: a phrase delivered by the scribe callback
(`handlePhrase`), the translation effect issuing a fetch, the fetch
resolving (`some t` on success, `none` on any failure: provider
error, non-ok response or malformed payload), and the stop branch of
`handleStartStop`. -/
inductive PipeEv where
  | phrase (p : String)
  | issueTranslate
  | translateDone (r : Option String)
  | stopClick
  deriving Repr, DecidableEq

/-- Whether the translation effect body runs (`IphoneTranslateView.tsx`
lines 111-113): non-empty queue and a free translation lock. -/
def translateEligible (s : PipeState) : Bool :=
  s.phraseArray.length > 0 && !s.isTranslating

/-- One pipeline event. `issueTranslate` models the guarded start of
`translateNextPhrase` (lock set, fetch issued); `translateDone`
models the continuation after the fetch: on success pop the head,
append the translation and update the rolling window, on failure pop
the head only; either way the `finally` clause releases the lock.
`stopClick` is the stop branch of `handleStartStop` (lines 192-199):
disconnect, keep both arrays, and unconditionally reset both refs. -/
def stepPipe (s : PipeState) : PipeEv → PipeState
  | .phrase p => { s with phraseArray := s.phraseArray ++ [p] }
  | .issueTranslate =>
    if translateEligible s then
      { s with isTranslating := true, outstandingT := s.outstandingT + 1 }
    else s
  | .translateDone r =>
    if s.outstandingT > 0 then
      match r with
      | some t =>
        { s with
            phraseArray := s.phraseArray.drop 1
            translatedArray := s.translatedArray ++ [t]
            recentTranslations := lastThree s.recentTranslations t
            isTranslating := false
            outstandingT := s.outstandingT - 1 }
      | none =>
        { s with
            phraseArray := s.phraseArray.drop 1
            isTranslating := false
            outstandingT := s.outstandingT - 1 }
    else s
  | .stopClick =>
    if s.isConnected then
      { s with
          isConnected := false
          isTranslating := false
          isSpeaking := false }
    else s

/-- A run of pipeline events. -/
def runPipe (s : PipeState) : List PipeEv → PipeState
  | [] => s
  | e :: es => runPipe (stepPipe s e) es
/-- The browser `localStorage` modelled as an association list. -/
abbrev Storage := List (String × String)

/-- Model of `localStorage.getItem`. -/
def storeGet (st : Storage) (k : String) : Option String :=
  (st.find? (fun kv => kv.1 == k)).map (fun kv => kv.2)

/-- Model of `localStorage.setItem`. -/
def storeSet (st : Storage) (k v : String) : Storage :=
  (k, v) :: st.filter (fun kv => kv.1 != k)

/-- Model of `localStorage.removeItem`. -/
def storeRemove (st : Storage) (k : String) : Storage :=
  st.filter (fun kv => kv.1 != k)

/-- An observable `localStorage` mutation. -/
inductive StorageOp where
  | set (k v : String)
  | remove (k : String)
  deriving Repr, DecidableEq

/-- The constant `PASSWORD_STORAGE_KEY = 'elevenlabs_password'`. -/
def PASSWORD_STORAGE_KEY : String := "elevenlabs_password"

/-- The state of the `useElevenLabs` hook: token, loading flag and
surfaced error, all React state (in memory only). -/
structure ElevenState where
  token : Option String
  isLoading : Bool
  tokenError : Option String
  deriving Repr, DecidableEq

/-- The backend's possible answers to the token fetch: transport or
non-ok HTTP failure, a payload without a `token` field, or a token. -/
inductive TokenResp where
  | httpFail
  | noToken
  | ok (t : String)
  deriving Repr, DecidableEq

/-- Outcome of one `getToken` call: the updated hook state, the
promise's result (`none` when it rejected), and the `localStorage`
operations the call performed. -/
structure TokenFetch where
  hook : ElevenState
  result : Option String
  writes : List StorageOp
  deriving Repr, DecidableEq

/-- Model of `getToken` in `useElevenLabs.ts` (lines 22-55): always performs
a fresh fetch (no cache check), stores the token in React state only,
and performs no `localStorage` mutation (`writes` is always empty). -/
def getTokenM (st : ElevenState) (password : String) (resp : TokenResp) :
    TokenFetch :=
  if password == "" then { hook := st, result := none, writes := [] }
  else
    match resp with
    | .httpFail =>
      let m := some ("Failed to get ElevenLabs token")
      let st1 := { st with isLoading := false, tokenError := m }
      { hook := st1, result := none, writes := [] }
    | .noToken =>
      let m := some ("Token not found in response")
      let st1 := { st with isLoading := false, tokenError := m }
      { hook := st1, result := none, writes := [] }
    | .ok t =>
      { hook := { st with token := some t, isLoading := false, tokenError := none }
        result := some t
        writes := [] }

/-- Model of `clearToken` in `useElevenLabs.ts`. -/
def clearTokenM (st : ElevenState) : ElevenState :=
  { st with token := none, tokenError := none }

/-- Outcome of the start branch of the iPhone `handleStartStop`: the
new pipeline and hook state, the token the connect call received
(`none` if the start failed), and the storage operations performed. -/
structure StartResult where
  pipe : PipeState
  hook : ElevenState
  connectedWith : Option String
  writes : List StorageOp
  deriving Repr, DecidableEq

/-- The start branch of the iPhone `handleStartStop`
(`IphoneTranslateView.tsx` lines 200-229): require a password, clear
the previous session's queues and refs, fetch a fresh token via
`getToken` (ignoring any cached `token` state in the hook), and
connect with exactly that fresh token. -/
def startSessionM (p : PipeState) (st : ElevenState) (password : String)
    (resp : TokenResp) : StartResult :=
  if p.isConnected then { pipe := p, hook := st, connectedWith := none, writes := [] }
  else if password == "" then
    { pipe := p, hook := st, connectedWith := none, writes := [] }
  else
    let p1 := { p with
      phraseArray := []
      translatedArray := []
      currentTranslation := ""
      isTranslating := false
      isSpeaking := false }
    let f := getTokenM st password resp
    match f.result with
    | some t =>
      { pipe := { p1 with isConnected := true }
        hook := f.hook
        connectedWith := some t
        writes := f.writes }
    | none =>
      { pipe := p1, hook := f.hook, connectedWith := none, writes := f.writes }

/-- The authentication-form state of `IphoneTranslateView.tsx`. -/
structure AuthState where
  password : String
  passwordInput : String
  authError : Option String
  deriving Repr, DecidableEq

/-- The `password` `useState` initializer (lines 30-32): on every
mount the password is read back from `localStorage`. -/
def mountPassword (storage : Storage) : String :=
  (storeGet storage PASSWORD_STORAGE_KEY).getD ""

/-- Outcome of an authentication-form action: the new form state,
hook state, `localStorage` contents, and the storage operations the
action performed. -/
structure AuthResult where
  auth : AuthState
  hook : ElevenState
  store : Storage
  writes : List StorageOp
  deriving Repr, DecidableEq

/-- Model of `handlePasswordSubmit` (lines 75-99): on a successful token fetch
the submitted password is written to `localStorage` under
`PASSWORD_STORAGE_KEY` and kept in state; on failure only the error
message changes. -/
def handlePasswordSubmitM (a : AuthState) (st : ElevenState) (storage : Storage)
    (resp : TokenResp) : AuthResult :=
  if (jsTrimS a.passwordInput) == "" then
    { auth := { a with authError := some ("Please enter a password") }
      hook := st
      store := storage
      writes := [] }
  else
    let f := getTokenM st a.passwordInput resp
    match f.result with
    | some _ =>
      let a1 :=
        { a with password := a.passwordInput, passwordInput := "", authError := none }
      { auth := a1
        hook := f.hook
        store := storeSet storage PASSWORD_STORAGE_KEY a.passwordInput
        writes := [StorageOp.set PASSWORD_STORAGE_KEY a.passwordInput] }
    | none =>
      { auth := { a with authError := some ("Authentication failed") }
        hook := f.hook
        store := storage
        writes := [] }

/-- Model of `handleLogout` (lines 101-108): remove the stored password, clear
the token and reset the form. -/
def handleLogoutM (a : AuthState) (st : ElevenState) (storage : Storage) :
    AuthResult :=
  { auth := { a with password := "", passwordInput := "", authError := none }
    hook := clearTokenM st
    store := storeRemove storage PASSWORD_STORAGE_KEY
    writes := [StorageOp.remove PASSWORD_STORAGE_KEY] }

/-- The single-flight invariant of the translation stage: at most
one fetch outstanding, and none when the lock is free. -/
def pipeInv (s : PipeState) : Prop :=
  s.outstandingT ≤ 1 ∧ (s.isTranslating = false → s.outstandingT = 0)

/-- Concrete scenario data used in the claim analyses below. -/
def c1Text : List Char := ("a b c d e f g h i j k l m").data

/-- The end state after the scenario: one interim revision of
thirteen words followed by a final revision with the same text, and
the word buffer drained by `PROCESS 2`. -/
def c1End : AppState := process2All (onFinal (onInterim initAppState c1Text) c1Text)

/-- Twenty words: two full groups of `WORDS_PER_PHRASE`. -/
def c2Text : List Char := ("a b c d e f g h i j k l m n o p q r s t").data

/-- Fifteen words, more than one group. -/
def c3Text : List Char := ("a b c d e f g h i j k l m n o").data

/-- Playback started on a queue of two translated phrases. -/
def c4Start : SpeakState :=
  speakStart
    { translatedArray := [("one"), ("two")]
      currentTranslation := ""
      isSpeaking := false
      timeoutArmed := false
      utterancesPending := 0 }

/-- A phrase arrives and the translation effect issues its fetch. -/
def c5Mid : PipeState :=
  runPipe initPipe [PipeEv.phrase ("hello"), PipeEv.issueTranslate]

/-- The stop button is pressed while the fetch is outstanding. -/
def c5Stopped : PipeState := stepPipe c5Mid PipeEv.stopClick

/-- An event run with no stop click: one phrase translated. -/
def c5CleanTrace : List PipeEv :=
  [PipeEv.phrase ("p1"), PipeEv.issueTranslate, PipeEv.translateDone (some ("t1"))]

/-- A translating pipeline holding two queued phrases. -/
def c6State : PipeState :=
  { initPipe with
      phraseArray := [("p1"), ("p2")]
      isTranslating := true
      outstandingT := 1 }

/-- A listening session with three words accumulated but not yet
grouped into a phrase. -/
def c7State : AppState :=
  { initAppState with
      isListening := true
      wordArray := [("a").data, ("b").data, ("c").data]
      allProcessedText := ("x y z").data }

/-- A fresh, disconnected pipeline for the token scenarios. -/
def c9Pipe : PipeState := { initPipe with isConnected := false }

/-- A hook state with no token yet. -/
def c9Hook : ElevenState := { token := none, isLoading := false, tokenError := none }

/-- A form state with a pending password input. -/
def c10Auth : AuthState :=
  { password := "", passwordInput := "hunter2", authError := none }

/-- Every fragment produced by `splitOnP` is free of separator
elements. -/
theorem sep_free_of_mem_splitOnP {α : Type} (p : α → Bool) (s : List α) :
    ∀ w ∈ s.splitOnP p, ∀ c ∈ w, p c = false := by
  induction s with
  | nil =>
    intro w hw c hc
    rw [List.splitOnP_nil, List.mem_singleton] at hw
    subst hw
    simp at hc
  | cons x xs ih =>
    intro w hw c hc
    rw [List.splitOnP_cons] at hw
    by_cases hx : p x = true
    · rw [if_pos hx] at hw
      rcases List.mem_cons.mp hw with rfl | hw2
      · simp at hc
      · exact ih w hw2 c hc
    · rw [if_neg hx] at hw
      cases h : xs.splitOnP p with
      | nil =>
        rw [h] at hw
        simp at hw
      | cons a as =>
        rw [h] at hw
        simp only [List.modifyHead] at hw
        rcases List.mem_cons.mp hw with rfl | hw2
        · rcases List.mem_cons.mp hc with rfl | hc2
          · exact Bool.eq_false_iff.mpr hx
          · exact ih a (h ▸ List.mem_cons_self a as) c hc2
        · exact ih w (h ▸ List.mem_cons_of_mem a hw2) c hc

/-- Every word produced by `splitWords` is non-empty and
whitespace-free. -/
theorem mem_splitWords_ok (s : List Char) :
    ∀ w ∈ splitWords s, w ≠ [] ∧ ∀ c ∈ w, wsChar c = false := by
  intro w hw
  unfold splitWords at hw
  rw [List.mem_filter] at hw
  refine ⟨?_, sep_free_of_mem_splitOnP wsChar s w hw.1⟩
  intro hnil
  subst hnil
  simp at hw

/-- Joining a non-empty list of non-empty words is
non-empty. -/
theorem joinWords_ne_nil :
    ∀ ws : List (List Char), ws ≠ [] → (∀ w ∈ ws, w ≠ []) → joinWords ws ≠ [] := by
  intro ws
  cases ws with
  | nil => intro h; exact absurd rfl h
  | cons w ws =>
    intro _ hne
    cases ws with
    | nil => exact hne w (List.mem_cons_self w [])
    | cons v vs =>
      show w ++ ' ' :: joinWords (v :: vs) ≠ []
      simp

/-- Splitting undoes joining on whitespace-free non-empty words:
the `splitOnP` half. -/
theorem splitOnP_joinWords :
    ∀ ws : List (List Char), (∀ w ∈ ws, ∀ c ∈ w, wsChar c = false) → ws ≠ [] →
      (joinWords ws).splitOnP wsChar = ws := by
  intro ws
  induction ws with
  | nil => intro _ h; exact absurd rfl h
  | cons w ws ih =>
    intro hok _
    cases ws with
    | nil =>
      show (joinWords [w]).splitOnP wsChar = [w]
      have : joinWords [w] = w := rfl
      rw [this]
      refine List.splitOnP_eq_single wsChar w ?_
      intro x hx hpx
      rw [hok w (List.mem_cons_self w []) x hx] at hpx
      exact Bool.false_ne_true hpx
    | cons v vs =>
      have hj : joinWords (w :: v :: vs) = w ++ ' ' :: joinWords (v :: vs) := rfl
      rw [hj]
      have hw : ∀ x ∈ w, ¬ wsChar x = true := by
        intro x hx hpx
        rw [hok w (List.mem_cons_self w (v :: vs)) x hx] at hpx
        exact Bool.false_ne_true hpx
      rw [List.splitOnP_first wsChar w hw ' ' (by decide) (joinWords (v :: vs))]
      rw [ih (fun u hu => hok u (List.mem_cons_of_mem w hu)) (by simp)]

/-- The function `splitWords` recovers the word list from `joinWords` whenever the
words are non-empty and whitespace-free. -/
theorem splitWords_joinWords (ws : List (List Char))
    (hok : ∀ w ∈ ws, w ≠ [] ∧ ∀ c ∈ w, wsChar c = false) :
    splitWords (joinWords ws) = ws := by
  cases hws : ws with
  | nil => rfl
  | cons w vs =>
    unfold splitWords
    rw [splitOnP_joinWords (w :: vs) (fun u hu => (hok u (hws ▸ hu)).2) (by simp)]
    refine List.filter_eq_self.mpr ?_
    intro a ha
    have hane : a ≠ [] := (hok a (hws ▸ ha)).1
    simp [List.length_pos]
    exact hane

/-- Characterisation of the emitting case of `scribeOnInterim`. -/
theorem scribeOnInterim_emit (c : Nat) (text : List Char)
    (ht : (jsTrim text).length > 0)
    (hn : (splitWords (jsTrim text)).length - c ≥ WORDS_PER_PHRASE) :
    scribeOnInterim c text
      = (c + WORDS_PER_PHRASE,
          [joinWords (((splitWords (jsTrim text)).drop c).take WORDS_PER_PHRASE)]) := by
  unfold scribeOnInterim
  rw [if_pos ht, if_pos hn]

/-- The handler `scribeOnInterim` never emits more than one phrase per event. -/
theorem scribeOnInterim_le_one (c : Nat) (text : List Char) :
    (scribeOnInterim c text).2.length ≤ 1 := by
  simp only [scribeOnInterim]
  split
  · split
    · simp
    · simp
  · simp

/-- Words of any slice of a `splitWords` result are non-empty and
whitespace-free. -/
theorem slice_ok (s : List Char) (a b : Nat) :
    ∀ w ∈ ((splitWords s).drop a).take b, w ≠ [] ∧ ∀ c ∈ w, wsChar c = false := by
  intro w hw
  exact mem_splitWords_ok s w (List.mem_of_mem_drop (List.mem_of_mem_take hw))

/-- Every phrase emitted by `scribeOnInterim` has exactly
`WORDS_PER_PHRASE` words. -/
theorem scribeOnInterim_words (c : Nat) (text : List Char) :
    ∀ ph ∈ (scribeOnInterim c text).2, (splitWords ph).length = WORDS_PER_PHRASE := by
  intro ph hph
  simp only [scribeOnInterim] at hph
  by_cases ht : (jsTrim text).length > 0
  · rw [if_pos ht] at hph
    by_cases hn : (splitWords (jsTrim text)).length - c ≥ WORDS_PER_PHRASE
    · rw [if_pos hn] at hph
      rw [List.mem_singleton] at hph
      subst hph
      rw [splitWords_joinWords _ (slice_ok (jsTrim text) c WORDS_PER_PHRASE)]
      rw [List.length_take, List.length_drop]
      exact Nat.min_eq_left hn
    · rw [if_neg hn] at hph
      simp at hph
  · rw [if_neg ht] at hph
    simp at hph

/-- Characterisation of the emitting case of `scribeOnCommitted`:
everything past the counter leaves as one phrase, and the counter
resets. -/
theorem scribeOnCommitted_emit (c : Nat) (text : List Char)
    (ht : (jsTrim text).length > 0)
    (hc : c < (splitWords (jsTrim text)).length) :
    scribeOnCommitted c text
      = (0, [joinWords ((splitWords (jsTrim text)).drop c)]) := by
  simp only [scribeOnCommitted]
  rw [if_pos ht, if_pos (show (splitWords (jsTrim text)).length > c from hc)]
  have hne : joinWords ((splitWords (jsTrim text)).drop c) ≠ [] := by
    refine joinWords_ne_nil _ ?_ ?_
    · intro h
      have := congrArg List.length h
      rw [List.length_drop] at this
      simp at this
      omega
    · intro w hw
      exact (mem_splitWords_ok (jsTrim text) w (List.mem_of_mem_drop hw)).1
  rw [if_pos (List.length_pos.mpr hne)]

/-- The committed-transcript phrase carries all remaining words:
its word count is the full count minus the counter. -/
theorem scribeOnCommitted_words (c : Nat) (text : List Char) :
    (splitWords (joinWords ((splitWords (jsTrim text)).drop c))).length
      = (splitWords (jsTrim text)).length - c := by
  rw [splitWords_joinWords]
  · exact List.length_drop c (splitWords (jsTrim text))
  · intro w hw
    exact mem_splitWords_ok (jsTrim text) w (List.mem_of_mem_drop hw)

/-- Every phrase the interim branch of `App.tsx` appends has exactly
`WORDS_PER_PHRASE` words. -/
theorem onInterim_words (s : AppState) (text : List Char) :
    ∀ ph ∈ (onInterim s text).phraseArray,
      ph ∈ s.phraseArray ∨ (splitWords ph).length = WORDS_PER_PHRASE := by
  intro ph hph
  simp only [onInterim] at hph
  by_cases ht : (jsTrim text).length > 0
  · rw [if_pos ht] at hph
    by_cases hn :
        (splitWords (jsTrim text)).length - s.processedWordCount ≥ WORDS_PER_PHRASE
    · rw [if_pos hn] at hph
      simp only [List.mem_append, List.mem_singleton] at hph
      rcases hph with h | h
      · exact Or.inl h
      · subst h
        refine Or.inr ?_
        rw [splitWords_joinWords _
          (slice_ok (jsTrim text) s.processedWordCount WORDS_PER_PHRASE)]
        rw [List.length_take, List.length_drop]
        exact Nat.min_eq_left hn
    · rw [if_neg hn] at hph
      exact Or.inl hph
  · rw [if_neg ht] at hph
    exact Or.inl hph

/-- Every phrase `PROCESS 2` appends from a well-formed word buffer
has exactly `WORDS_PER_PHRASE` words. -/
theorem process2Step_words (s : AppState)
    (hok : ∀ w ∈ s.wordArray, w ≠ [] ∧ ∀ c ∈ w, wsChar c = false) :
    ∀ ph ∈ (process2Step s).phraseArray,
      ph ∈ s.phraseArray ∨ (splitWords ph).length = WORDS_PER_PHRASE := by
  intro ph hph
  simp only [process2Step] at hph
  by_cases hn : s.wordArray.length ≥ WORDS_PER_PHRASE
  · rw [if_pos hn] at hph
    simp only [List.mem_append, List.mem_singleton] at hph
    rcases hph with h | h
    · exact Or.inl h
    · subst h
      refine Or.inr ?_
      rw [splitWords_joinWords _ (fun w hw => hok w (List.mem_of_mem_take hw))]
      rw [List.length_take]
      exact Nat.min_eq_left hn
  · rw [if_neg hn] at hph
    exact Or.inl hph

/-- Any pipeline event other than the stop button preserves the
single-flight invariant. -/
theorem stepPipe_inv (s : PipeState) (e : PipeEv)
    (he : e ≠ PipeEv.stopClick) (h : pipeInv s) : pipeInv (stepPipe s e) := by
  obtain ⟨h1, h2⟩ := h
  cases e with
  | phrase p =>
    exact ⟨h1, h2⟩
  | issueTranslate =>
    by_cases hel : translateEligible s = true
    · have hfree : s.isTranslating = false := by
        simp [translateEligible] at hel
        exact hel.2
      have h0 : s.outstandingT = 0 := h2 hfree
      simp [stepPipe, hel, pipeInv, h0]
    · simp only [stepPipe, hel, Bool.false_eq_true, if_false]
      exact ⟨h1, h2⟩
  | translateDone r =>
    by_cases ho : s.outstandingT > 0
    · cases r with
      | some t =>
        simp [stepPipe, ho, pipeInv]
        omega
      | none =>
        simp [stepPipe, ho, pipeInv]
        omega
    · simp [stepPipe, ho]
      exact ⟨h1, h2⟩
  | stopClick =>
    exact absurd rfl he

/-- Event runs without the stop button preserve the single-flight
invariant. -/
theorem runPipe_inv (evs : List PipeEv) :
    ∀ s : PipeState, pipeInv s → (∀ e ∈ evs, e ≠ PipeEv.stopClick) →
      pipeInv (runPipe s evs) := by
  induction evs with
  | nil =>
    intro s h _
    exact h
  | cons e es ih =>
    intro s h hno
    show pipeInv (runPipe (stepPipe s e) es)
    refine ih (stepPipe s e) ?_ ?_
    · exact stepPipe_inv s e (hno e (List.mem_cons_self e es)) h
    · intro x hx
      exact hno x (List.mem_cons_of_mem e hx)

/-- Reading back a key just written. -/
theorem storeGet_storeSet (st : Storage) (k v : String) :
    storeGet (storeSet st k v) k = some v := by
  unfold storeGet storeSet
  rw [List.find?_cons_of_pos _ (by simp)]
  rfl

/-- A removed key is gone. -/
theorem storeGet_storeRemove (st : Storage) (k : String) :
    storeGet (storeRemove st k) k = none := by
  unfold storeGet storeRemove
  have hall : ∀ kv ∈ st.filter (fun kv => kv.1 != k),
      ¬ ((fun kv : String × String => kv.1 == k) kv = true) := by
    intro kv hkv
    have h2 := (List.mem_filter.mp hkv).2
    simp at h2 ⊢
    exact h2
  rw [List.find?_eq_none.mpr hall]
  rfl

/-- The fetch `getToken` never touches `localStorage`. -/
theorem getTokenM_writes (st : ElevenState) (pw : String) (r : TokenResp) :
    (getTokenM st pw r).writes = [] := by
  unfold getTokenM
  by_cases h : (pw == "") = true
  · rw [if_pos h]
  · rw [if_neg h]
    cases r <;> rfl
/-- C1: the dedup invariant fails. For the interim revision
`"a b c d e f g h i j k l m"` (13 words) followed by a final revision
with the same text, the word `"k"` is spoken once but emitted in no
phrase at all — the phrase-emitting interim retained its full text,
so the final's overlap stripping also discards the three words beyond
the emitted group of ten, and they never reach `wordArray` either. -/
theorem c1_dedup_drops_tail_words :
    (splitWords c1Text).count (("k").data) = 1
    ∧ ((c1End.phraseArray.map splitWords).flatten.count (("k").data)) = 0
    ∧ c1End.wordArray = []
    ∧ c1End.phraseArray = [("a b c d e f g h i j").data] := by decide

/-- C2 counterexample: a partial revision carrying twenty new words
(two full groups of ten) yields exactly one phrase from that single
event in both segmenter variants, not two or more: the source guards
the slice with `if`, not `while`. -/
theorem c2_double_jump_yields_single_phrase :
    (splitWords c2Text).length = 2 * WORDS_PER_PHRASE
    ∧ (scribeOnInterim 0 c2Text).2.length = 1
    ∧ (onInterim { initAppState with isListening := true } c2Text).phraseArray.length = 1
    := by decide

/-- C2 amended: on a partial revision with at least `N` unprocessed
words, the segmenter emits exactly one group of `N` words (the slice
starting at the processed counter) and advances the counter by `N`;
no partial event ever emits more than one phrase. Remaining full
groups wait for later partial events. -/
theorem c2_amended_one_group_per_event (c : Nat) (text : List Char)
    (ht : (jsTrim text).length > 0)
    (hn : (splitWords (jsTrim text)).length - c ≥ WORDS_PER_PHRASE) :
    scribeOnInterim c text
      = (c + WORDS_PER_PHRASE,
          [joinWords (((splitWords (jsTrim text)).drop c).take WORDS_PER_PHRASE)])
    ∧ ∀ c2 t2, (scribeOnInterim c2 t2).2.length ≤ 1 :=
  ⟨scribeOnInterim_emit c text ht hn, fun c2 t2 => scribeOnInterim_le_one c2 t2⟩

/-- Witness for the C2 amended theorem at the twenty-word input. -/
theorem c2_amended_one_group_per_event_witness :
    scribeOnInterim 0 c2Text
      = (0 + WORDS_PER_PHRASE,
          [joinWords (((splitWords (jsTrim c2Text)).drop 0).take WORDS_PER_PHRASE)])
    ∧ ∀ c2 t2, (scribeOnInterim c2 t2).2.length ≤ 1 :=
  c2_amended_one_group_per_event 0 c2Text (by decide) (by decide)

/-- C3 counterexample: a committed transcript of fifteen words with a
zero counter is flushed as ONE phrase of fifteen words — more than
`WORDS_PER_PHRASE` — and a committed transcript of three words is
flushed as a three-word phrase mid-session (the counter resets and
the session continues), contradicting both halves of the claim. -/
theorem c3_committed_phrase_sizes_counterexample :
    (scribeOnCommitted 0 c3Text).2 = [c3Text]
    ∧ (splitWords c3Text).length = 15
    ∧ WORDS_PER_PHRASE < 15
    ∧ (scribeOnCommitted 0 (("a b c").data)).2 = [("a b c").data]
    ∧ (scribeOnCommitted 0 (("a b c").data)).1 = 0
    ∧ (splitWords (("a b c").data)).length = 3 := by decide

/-- C3 amended: phrases emitted from partial revisions always have
exactly `WORDS_PER_PHRASE` words (in both variants, as does the
`PROCESS 2` grouping from a well-formed word buffer), but every
committed transcript immediately flushes its entire unprocessed
remainder as one phrase whose word count is the total minus the
counter — possibly shorter or longer than `WORDS_PER_PHRASE`, and
mid-session rather than only at session end. -/
theorem c3_amended_phrase_sizes :
    (∀ c text, ∀ ph ∈ (scribeOnInterim c text).2,
        (splitWords ph).length = WORDS_PER_PHRASE)
    ∧ (∀ c text, (jsTrim text).length > 0 →
        c < (splitWords (jsTrim text)).length →
        scribeOnCommitted c text
          = (0, [joinWords ((splitWords (jsTrim text)).drop c)])
        ∧ (splitWords (joinWords ((splitWords (jsTrim text)).drop c))).length
            = (splitWords (jsTrim text)).length - c)
    ∧ (∀ s text, ∀ ph ∈ (onInterim s text).phraseArray,
        ph ∈ s.phraseArray ∨ (splitWords ph).length = WORDS_PER_PHRASE)
    ∧ (∀ s : AppState, (∀ w ∈ s.wordArray, w ≠ [] ∧ ∀ c ∈ w, wsChar c = false) →
        ∀ ph ∈ (process2Step s).phraseArray,
          ph ∈ s.phraseArray ∨ (splitWords ph).length = WORDS_PER_PHRASE) :=
  ⟨fun c text => scribeOnInterim_words c text,
   fun c text ht hc =>
     ⟨scribeOnCommitted_emit c text ht hc, scribeOnCommitted_words c text⟩,
   fun s text => onInterim_words s text,
   fun s hok => process2Step_words s hok⟩

/-- Witness for the C3 amended theorem: the phrase emitted from the
twenty-word partial has exactly ten words, and the fifteen-word
committed transcript flushes as one phrase. -/
theorem c3_amended_phrase_sizes_witness :
    (splitWords (joinWords
        (((splitWords (jsTrim c2Text)).drop 0).take WORDS_PER_PHRASE))).length
      = WORDS_PER_PHRASE
    ∧ scribeOnCommitted 0 c3Text
        = (0, [joinWords ((splitWords (jsTrim c3Text)).drop 0)]) :=
  ⟨c3_amended_phrase_sizes.1 0 c2Text
      (joinWords (((splitWords (jsTrim c2Text)).drop 0).take WORDS_PER_PHRASE))
      (by decide),
   (c3_amended_phrase_sizes.2.1 0 c3Text (by decide) (by decide)).1⟩

/-- C4 counterexample: one playback is initiated on a queue of two
translated phrases; the safety timeout fires first, then the
provider's completion signal arrives. The timeout did not cancel the
provider's handlers, so TWO elements leave the queue for the single
initiation (the claim requires exactly one). -/
theorem c4_timeout_then_signal_removes_two :
    c4Start.translatedArray.length = 2
    ∧ c4Start.utterancesPending = 1
    ∧ (speakRun c4Start [SpeakEv.timeoutFire, SpeakEv.onEnd]).translatedArray = []
    := ⟨rfl, rfl, rfl⟩

/-- C4 amended: when the provider's signal fires first it cancels the
timeout — a later timeout expiry is a no-op and exactly one element
is removed; but when the timeout fires first it removes the head and
releases the lock WITHOUT cancelling the provider's signal, so a
late signal removes a second element. -/
theorem c4_amended_timeout_does_not_cancel_signal (s : SpeakState)
    (harm : s.timeoutArmed = true) (hpend : s.utterancesPending = 1) :
    speakRun s [SpeakEv.onEnd, SpeakEv.timeoutFire] = speakStep s SpeakEv.onEnd
    ∧ (speakStep s SpeakEv.onEnd).translatedArray = s.translatedArray.drop 1
    ∧ (speakStep s SpeakEv.onEnd).timeoutArmed = false
    ∧ (speakStep s SpeakEv.onEnd).isSpeaking = false
    ∧ (speakRun s [SpeakEv.timeoutFire, SpeakEv.onEnd]).translatedArray
        = s.translatedArray.drop 2
    ∧ (speakRun s [SpeakEv.timeoutFire, SpeakEv.onEnd]).utterancesPending = 0 := by
  have hp : s.utterancesPending > 0 := by omega
  refine ⟨?_, ?_, ?_, ?_, ?_, ?_⟩
  · simp [speakRun, speakStep, harm, hp, hpend]
  · simp [speakStep, hp]
  · simp [speakStep, hp]
  · simp [speakStep, hp]
  · simp [speakRun, speakStep, harm, hp, hpend]
  · simp [speakRun, speakStep, harm, hp, hpend]

/-- Witness for the C4 amended theorem at the concrete two-element
playback state. -/
theorem c4_amended_timeout_does_not_cancel_signal_witness :
    speakRun c4Start [SpeakEv.onEnd, SpeakEv.timeoutFire]
        = speakStep c4Start SpeakEv.onEnd
    ∧ (speakStep c4Start SpeakEv.onEnd).translatedArray
        = c4Start.translatedArray.drop 1
    ∧ (speakStep c4Start SpeakEv.onEnd).timeoutArmed = false
    ∧ (speakStep c4Start SpeakEv.onEnd).isSpeaking = false
    ∧ (speakRun c4Start [SpeakEv.timeoutFire, SpeakEv.onEnd]).translatedArray
        = c4Start.translatedArray.drop 2
    ∧ (speakRun c4Start [SpeakEv.timeoutFire, SpeakEv.onEnd]).utterancesPending = 0 :=
  c4_amended_timeout_does_not_cancel_signal c4Start rfl rfl

/-- C5 counterexample: a translation fetch is issued (lock held, one
call outstanding); the stop button is pressed while it is in flight.
The stop branch unconditionally clears both in-flight locks although
the fetch is still outstanding, and a subsequent effect run can then
issue a second fetch, giving two simultaneously outstanding
translation calls. -/
theorem c5_stop_clears_lock_mid_flight :
    c5Mid.isTranslating = true
    ∧ c5Mid.outstandingT = 1
    ∧ c5Stopped.isTranslating = false
    ∧ c5Stopped.isSpeaking = false
    ∧ c5Stopped.outstandingT = 1
    ∧ (stepPipe c5Stopped PipeEv.issueTranslate).outstandingT = 2 :=
  ⟨rfl, rfl, rfl, rfl, rfl, rfl⟩

/-- C5 amended: the translation lock is set before each fetch is
issued and cleared in every completion path, and in any event run
that never presses stop, at most one translation call is outstanding
(none when the lock is free); the iPhone stop branch, however,
clears both locks unconditionally even while a call is in flight. -/
theorem c5_amended_single_flight_without_stop (evs : List PipeEv)
    (hno : ∀ e ∈ evs, e ≠ PipeEv.stopClick) :
    (runPipe initPipe evs).outstandingT ≤ 1
    ∧ ((runPipe initPipe evs).isTranslating = false →
        (runPipe initPipe evs).outstandingT = 0)
    ∧ (∀ s : PipeState, translateEligible s = true →
        (stepPipe s PipeEv.issueTranslate).isTranslating = true
        ∧ (stepPipe s PipeEv.issueTranslate).outstandingT = s.outstandingT + 1)
    ∧ (∀ s : PipeState, s.isConnected = true →
        (stepPipe s PipeEv.stopClick).isTranslating = false
        ∧ (stepPipe s PipeEv.stopClick).isSpeaking = false
        ∧ (stepPipe s PipeEv.stopClick).outstandingT = s.outstandingT) := by
  have h := runPipe_inv evs initPipe ⟨by decide, fun _ => rfl⟩ hno
  refine ⟨h.1, h.2, ?_, ?_⟩
  · intro s hel
    simp [stepPipe, hel]
  · intro s hc
    simp [stepPipe, hc]

/-- Witness for the C5 amended theorem on a stop-free trace that
translates one phrase. -/
theorem c5_amended_single_flight_without_stop_witness :
    (runPipe initPipe c5CleanTrace).outstandingT ≤ 1
    ∧ ((runPipe initPipe c5CleanTrace).isTranslating = false →
        (runPipe initPipe c5CleanTrace).outstandingT = 0)
    ∧ (∀ s : PipeState, translateEligible s = true →
        (stepPipe s PipeEv.issueTranslate).isTranslating = true
        ∧ (stepPipe s PipeEv.issueTranslate).outstandingT = s.outstandingT + 1)
    ∧ (∀ s : PipeState, s.isConnected = true →
        (stepPipe s PipeEv.stopClick).isTranslating = false
        ∧ (stepPipe s PipeEv.stopClick).isSpeaking = false
        ∧ (stepPipe s PipeEv.stopClick).outstandingT = s.outstandingT) :=
  c5_amended_single_flight_without_stop c5CleanTrace (by decide)

/-- C6: on a failed translation (the fetch promise rejects for any
reason — provider error, non-ok response, or malformed payload), the
head phrase is removed with no retry, the translated queue and the
recent-translations window are untouched, the lock is released, and
with a non-empty remainder the translation stage is immediately
eligible again. -/
theorem c6_failure_drops_head_without_output (s : PipeState) (p : String)
    (rest : List String) (hq : s.phraseArray = p :: rest)
    (ho : s.outstandingT > 0) :
    (stepPipe s (PipeEv.translateDone none)).phraseArray = rest
    ∧ (stepPipe s (PipeEv.translateDone none)).translatedArray = s.translatedArray
    ∧ (stepPipe s (PipeEv.translateDone none)).recentTranslations
        = s.recentTranslations
    ∧ (stepPipe s (PipeEv.translateDone none)).isTranslating = false
    ∧ (rest = []
        ∨ translateEligible (stepPipe s (PipeEv.translateDone none)) = true) := by
  refine ⟨?_, ?_, ?_, ?_, ?_⟩
  · simp [stepPipe, ho, hq]
  · simp [stepPipe, ho]
  · simp [stepPipe, ho]
  · simp [stepPipe, ho]
  · cases rest with
    | nil => exact Or.inl rfl
    | cons r rs =>
      refine Or.inr ?_
      simp [stepPipe, ho, hq, translateEligible]

/-- Witness for C6 at a concrete translating pipeline with two queued
phrases. -/
theorem c6_failure_drops_head_without_output_witness :
    (stepPipe c6State (PipeEv.translateDone none)).phraseArray = [("p2")]
    ∧ (stepPipe c6State (PipeEv.translateDone none)).translatedArray
        = c6State.translatedArray
    ∧ (stepPipe c6State (PipeEv.translateDone none)).recentTranslations
        = c6State.recentTranslations
    ∧ (stepPipe c6State (PipeEv.translateDone none)).isTranslating = false
    ∧ ([("p2")] = ([] : List String)
        ∨ translateEligible (stepPipe c6State (PipeEv.translateDone none)) = true) :=
  c6_failure_drops_head_without_output c6State ("p1") [("p2")] rfl (by decide)

/-- C7 counterexample: stopping a session with three accumulated but
ungrouped words flushes nothing — no phrase enters the phrase queue,
the word buffer and ledger keep their contents — and the scribe
variant's disconnect merely resets the counter and emits no phrase
either, contradicting both the flush and the clearing in the claim. -/
theorem c7_stop_flushes_nothing :
    (handleStartStop c7State).phraseArray = []
    ∧ (handleStartStop c7State).wordArray = [("a").data, ("b").data, ("c").data]
    ∧ (handleStartStop c7State).allProcessedText = ("x y z").data
    ∧ (handleStartStop c7State).isListening = false
    ∧ scribeDisconnect 3 = (0, []) := by decide

/-- C7 amended: stop does not flush. The local stop branch only
clears the listening flag, leaving the whole segmenter state (word
buffer, ledger, counters) intact — it is cleared on the NEXT start,
not at stop; the scribe disconnect resets the counter and emits
nothing. Remainder words are instead flushed by each committed
transcript during the session. -/
theorem c7_amended_stop_only_ends_capture (s : AppState)
    (h : s.isListening = true) :
    handleStartStop s = { s with isListening := false }
    ∧ (∀ c, scribeDisconnect c = (0, []))
    ∧ (∀ c text, (jsTrim text).length > 0 →
        c < (splitWords (jsTrim text)).length →
        (scribeOnCommitted c text).2
          = [joinWords ((splitWords (jsTrim text)).drop c)])
    ∧ (∀ s2 : AppState, s2.isListening = false →
        (handleStartStop s2).wordArray = []
        ∧ (handleStartStop s2).lastInterim = []
        ∧ (handleStartStop s2).processedWordCount = 0
        ∧ (handleStartStop s2).allProcessedText = []) := by
  refine ⟨?_, fun c => rfl, ?_, ?_⟩
  · simp [handleStartStop, h]
  · intro c text ht hc
    rw [scribeOnCommitted_emit c text ht hc]
  · intro s2 h2
    refine ⟨?_, ?_, ?_, ?_⟩ <;> simp [handleStartStop, h2]

/-- Witness for the C7 amended theorem at the three-word session. -/
theorem c7_amended_stop_only_ends_capture_witness :
    handleStartStop c7State = { c7State with isListening := false }
    ∧ (∀ c, scribeDisconnect c = (0, []))
    ∧ (∀ c text, (jsTrim text).length > 0 →
        c < (splitWords (jsTrim text)).length →
        (scribeOnCommitted c text).2
          = [joinWords ((splitWords (jsTrim text)).drop c)])
    ∧ (∀ s2 : AppState, s2.isListening = false →
        (handleStartStop s2).wordArray = []
        ∧ (handleStartStop s2).lastInterim = []
        ∧ (handleStartStop s2).processedWordCount = 0
        ∧ (handleStartStop s2).allProcessedText = []) :=
  c7_amended_stop_only_ends_capture c7State rfl

/-- C8: stopping clears neither queue in either variant — the phrase
queue, translated queue, rolling window and current display all
survive the stop — and the pipeline's event handling is independent
of the connection flag, so the surviving items are drained exactly as
in an active session; only capture (the connection) is terminated. -/
theorem c8_stop_preserves_queues_and_drain (s : AppState)
    (hs : s.isListening = true) (q : PipeState) (hq : q.isConnected = true) :
    (handleStartStop s).phraseArray = s.phraseArray
    ∧ (handleStartStop s).translatedArray = s.translatedArray
    ∧ (handleStartStop s).currentTranslation = s.currentTranslation
    ∧ (handleStartStop s).recentTranslations = s.recentTranslations
    ∧ (stepPipe q PipeEv.stopClick).phraseArray = q.phraseArray
    ∧ (stepPipe q PipeEv.stopClick).translatedArray = q.translatedArray
    ∧ (stepPipe q PipeEv.stopClick).recentTranslations = q.recentTranslations
    ∧ (stepPipe q PipeEv.stopClick).isConnected = false
    ∧ (∀ (r : PipeState) (e : PipeEv), e ≠ PipeEv.stopClick →
        stepPipe { r with isConnected := false } e
          = { stepPipe r e with isConnected := false }) := by
  refine ⟨?_, ?_, ?_, ?_, ?_, ?_, ?_, ?_, ?_⟩
  · simp [handleStartStop, hs]
  · simp [handleStartStop, hs]
  · simp [handleStartStop, hs]
  · simp [handleStartStop, hs]
  · simp [stepPipe, hq]
  · simp [stepPipe, hq]
  · simp [stepPipe, hq]
  · simp [stepPipe, hq]
  · intro r e he
    cases e with
    | phrase p => rfl
    | issueTranslate =>
      show (if translateEligible { r with isConnected := false } then _ else _) = _
      by_cases hel : translateEligible r = true
      · have hel2 : translateEligible { r with isConnected := false } = true := hel
        rw [if_pos hel2]
        show _ = { (if translateEligible r then _ else _ : PipeState)
          with isConnected := false }
        rw [if_pos hel]
      · have hel2 : ¬ translateEligible { r with isConnected := false } = true := hel
        rw [if_neg hel2]
        show _ = { (if translateEligible r then _ else _ : PipeState)
          with isConnected := false }
        rw [if_neg hel]
    | translateDone r2 =>
      show (if ({ r with isConnected := false } : PipeState).outstandingT > 0
          then _ else _) = _
      by_cases ho : r.outstandingT > 0
      · rw [if_pos ho]
        show _ = { (if r.outstandingT > 0 then _ else _ : PipeState)
          with isConnected := false }
        rw [if_pos ho]
        cases r2 <;> rfl
      · rw [if_neg ho]
        show _ = { (if r.outstandingT > 0 then _ else _ : PipeState)
          with isConnected := false }
        rw [if_neg ho]
    | stopClick => exact absurd rfl he

/-- Witness for C8 at a concrete listening session and a concrete
connected pipeline. -/
theorem c8_stop_preserves_queues_and_drain_witness :
    (handleStartStop c7State).phraseArray = c7State.phraseArray
    ∧ (handleStartStop c7State).translatedArray = c7State.translatedArray
    ∧ (handleStartStop c7State).currentTranslation = c7State.currentTranslation
    ∧ (handleStartStop c7State).recentTranslations = c7State.recentTranslations
    ∧ (stepPipe c6State PipeEv.stopClick).phraseArray = c6State.phraseArray
    ∧ (stepPipe c6State PipeEv.stopClick).translatedArray = c6State.translatedArray
    ∧ (stepPipe c6State PipeEv.stopClick).recentTranslations
        = c6State.recentTranslations
    ∧ (stepPipe c6State PipeEv.stopClick).isConnected = false
    ∧ (∀ (r : PipeState) (e : PipeEv), e ≠ PipeEv.stopClick →
        stepPipe { r with isConnected := false } e
          = { stepPipe r e with isConnected := false }) :=
  c8_stop_preserves_queues_and_drain c7State rfl c6State rfl

/-- C9: every start of the remote variant fetches a fresh single-use
token and connects with exactly that token: two consecutive starts
(with a stop in between) each perform their own fetch and connect
with their own response's token — the second start does not reuse the
token cached in hook state from the first — and no token fetch ever
writes to `localStorage`. -/
theorem c9_fresh_token_every_start (p : PipeState) (st : ElevenState)
    (pw t1 t2 : String) (hpc : p.isConnected = false) (hpw : ¬ pw = "") :
    (startSessionM p st pw (TokenResp.ok t1)).connectedWith = some t1
    ∧ (startSessionM p st pw (TokenResp.ok t1)).writes = []
    ∧ (startSessionM p st pw (TokenResp.ok t1)).hook.token = some t1
    ∧ (startSessionM
        (stepPipe (startSessionM p st pw (TokenResp.ok t1)).pipe PipeEv.stopClick)
        (startSessionM p st pw (TokenResp.ok t1)).hook
        pw (TokenResp.ok t2)).connectedWith = some t2
    ∧ (startSessionM
        (stepPipe (startSessionM p st pw (TokenResp.ok t1)).pipe PipeEv.stopClick)
        (startSessionM p st pw (TokenResp.ok t1)).hook
        pw (TokenResp.ok t2)).writes = []
    ∧ (∀ st2 pw2 r2, (getTokenM st2 pw2 r2).writes = []) := by
  have hb : (pw == "") = false := by
    simp
    exact hpw
  refine ⟨?_, ?_, ?_, ?_, ?_, fun st2 pw2 r2 => getTokenM_writes st2 pw2 r2⟩
  · simp [startSessionM, getTokenM, hpc, hb]
  · simp [startSessionM, getTokenM, hpc, hb]
  · simp [startSessionM, getTokenM, hpc, hb]
  · simp [startSessionM, getTokenM, stepPipe, hpc, hb]
  · simp [startSessionM, getTokenM, stepPipe, hpc, hb]

/-- Witness for C9 with two distinct concrete tokens. -/
theorem c9_fresh_token_every_start_witness :
    (startSessionM c9Pipe c9Hook ("pw") (TokenResp.ok ("tokA"))).connectedWith
      = some ("tokA")
    ∧ (startSessionM c9Pipe c9Hook ("pw") (TokenResp.ok ("tokA"))).writes = []
    ∧ (startSessionM c9Pipe c9Hook ("pw") (TokenResp.ok ("tokA"))).hook.token
      = some ("tokA")
    ∧ (startSessionM
        (stepPipe (startSessionM c9Pipe c9Hook ("pw") (TokenResp.ok ("tokA"))).pipe
          PipeEv.stopClick)
        (startSessionM c9Pipe c9Hook ("pw") (TokenResp.ok ("tokA"))).hook
        ("pw") (TokenResp.ok ("tokB"))).connectedWith = some ("tokB")
    ∧ (startSessionM
        (stepPipe (startSessionM c9Pipe c9Hook ("pw") (TokenResp.ok ("tokA"))).pipe
          PipeEv.stopClick)
        (startSessionM c9Pipe c9Hook ("pw") (TokenResp.ok ("tokA"))).hook
        ("pw") (TokenResp.ok ("tokB"))).writes = []
    ∧ (∀ st2 pw2 r2, (getTokenM st2 pw2 r2).writes = []) :=
  c9_fresh_token_every_start c9Pipe c9Hook ("pw") ("tokA") ("tokB") rfl (by decide)


/-- A string with a non-empty trim is non-empty. -/
theorem ne_empty_of_jsTrimS_ne (pw : String) (h : ¬ jsTrimS pw = "") :
    ¬ pw = "" := by
  intro he
  rw [he] at h
  exact h rfl

/-- The successful branch of `handlePasswordSubmit`, fully reduced. -/
theorem handlePasswordSubmitM_success (a : AuthState) (st : ElevenState)
    (storage : Storage) (t : String)
    (htr : (jsTrimS a.passwordInput == "") = false)
    (hne : (a.passwordInput == "") = false) :
    handlePasswordSubmitM a st storage (TokenResp.ok t)
      = { auth :=
            { a with
                password := a.passwordInput
                passwordInput := ""
                authError := none }
          hook := { st with token := some t, isLoading := false, tokenError := none }
          store := storeSet storage PASSWORD_STORAGE_KEY a.passwordInput
          writes := [StorageOp.set PASSWORD_STORAGE_KEY a.passwordInput] } := by
  unfold handlePasswordSubmitM getTokenM
  simp [htr, hne]

/-- A failing token fetch never changes `localStorage`, whatever the
form state. -/
theorem handlePasswordSubmitM_fail_store (a : AuthState) (st : ElevenState)
    (storage : Storage) :
    (handlePasswordSubmitM a st storage TokenResp.httpFail).store = storage := by
  unfold handlePasswordSubmitM getTokenM
  by_cases h2 : (jsTrimS a.passwordInput == "") = true
  · simp [h2]
  · by_cases hp : (a.passwordInput == "") = true
    · simp [h2, hp]
    · simp [h2, hp]

/-- C10: the shared-secret password IS persisted — a successful
submit writes it to `localStorage` under the password key, a fresh
mount reads it back (so it survives browser sessions), only
`handleLogout` removes it (a failed fetch leaves storage untouched)
— while the fetched token lives only in in-memory hook state and no
token-fetch path writes to `localStorage` at all. -/
theorem c10_password_persisted_token_in_memory (a : AuthState)
    (st : ElevenState) (storage : Storage) (t : String)
    (hin : ¬ jsTrimS a.passwordInput = "") :
    (handlePasswordSubmitM a st storage (TokenResp.ok t)).store
      = storeSet storage PASSWORD_STORAGE_KEY a.passwordInput
    ∧ (handlePasswordSubmitM a st storage (TokenResp.ok t)).writes
      = [StorageOp.set PASSWORD_STORAGE_KEY a.passwordInput]
    ∧ mountPassword (handlePasswordSubmitM a st storage (TokenResp.ok t)).store
      = a.passwordInput
    ∧ (handlePasswordSubmitM a st storage (TokenResp.ok t)).auth.password
      = a.passwordInput
    ∧ (∀ a2 st2 sto2,
        (handleLogoutM a2 st2 sto2).writes
            = [StorageOp.remove PASSWORD_STORAGE_KEY]
        ∧ mountPassword (handleLogoutM a2 st2 sto2).store = ""
        ∧ (handleLogoutM a2 st2 sto2).auth.password = ""
        ∧ (handleLogoutM a2 st2 sto2).hook.token = none)
    ∧ (∀ a2 st2 sto2,
        (handlePasswordSubmitM a2 st2 sto2 TokenResp.httpFail).store = sto2)
    ∧ (∀ st2 pw2 r2, (getTokenM st2 pw2 r2).writes = [])
    ∧ (∀ st2 pw2 tt, ¬ pw2 = "" →
        (getTokenM st2 pw2 (TokenResp.ok tt)).hook.token = some tt) := by
  have hne : ¬ a.passwordInput = "" := ne_empty_of_jsTrimS_ne a.passwordInput hin
  have htr : (jsTrimS a.passwordInput == "") = false := by
    simp
    exact hin
  have hne2 : (a.passwordInput == "") = false := by
    simp
    exact hne
  have hs := handlePasswordSubmitM_success a st storage t htr hne2
  refine ⟨?_, ?_, ?_, ?_, ?_, ?_, fun st2 pw2 r2 => getTokenM_writes st2 pw2 r2, ?_⟩
  · rw [hs]
  · rw [hs]
  · rw [hs]
    show (storeGet (storeSet storage PASSWORD_STORAGE_KEY a.passwordInput)
        PASSWORD_STORAGE_KEY).getD ("") = a.passwordInput
    rw [storeGet_storeSet]
    rfl
  · rw [hs]
  · intro a2 st2 sto2
    refine ⟨rfl, ?_, rfl, rfl⟩
    show (storeGet (storeRemove sto2 PASSWORD_STORAGE_KEY)
        PASSWORD_STORAGE_KEY).getD ("") = ("")
    rw [storeGet_storeRemove]
    rfl
  · intro a2 st2 sto2
    exact handlePasswordSubmitM_fail_store a2 st2 sto2
  · intro st2 pw2 tt h2
    have hb2 : (pw2 == "") = false := by
      simp
      exact h2
    simp [getTokenM, hb2]

/-- Witness for C10 with a concrete password and token. -/
theorem c10_password_persisted_token_in_memory_witness :
    (handlePasswordSubmitM c10Auth c9Hook [] (TokenResp.ok ("tok"))).store
      = storeSet [] PASSWORD_STORAGE_KEY c10Auth.passwordInput
    ∧ (handlePasswordSubmitM c10Auth c9Hook [] (TokenResp.ok ("tok"))).writes
      = [StorageOp.set PASSWORD_STORAGE_KEY c10Auth.passwordInput]
    ∧ mountPassword (handlePasswordSubmitM c10Auth c9Hook [] (TokenResp.ok ("tok"))).store
      = c10Auth.passwordInput
    ∧ (handlePasswordSubmitM c10Auth c9Hook [] (TokenResp.ok ("tok"))).auth.password
      = c10Auth.passwordInput
    ∧ (∀ a2 st2 sto2,
        (handleLogoutM a2 st2 sto2).writes
            = [StorageOp.remove PASSWORD_STORAGE_KEY]
        ∧ mountPassword (handleLogoutM a2 st2 sto2).store = ""
        ∧ (handleLogoutM a2 st2 sto2).auth.password = ""
        ∧ (handleLogoutM a2 st2 sto2).hook.token = none)
    ∧ (∀ a2 st2 sto2,
        (handlePasswordSubmitM a2 st2 sto2 TokenResp.httpFail).store = sto2)
    ∧ (∀ st2 pw2 r2, (getTokenM st2 pw2 r2).writes = [])
    ∧ (∀ st2 pw2 tt, ¬ pw2 = "" →
        (getTokenM st2 pw2 (TokenResp.ok tt)).hook.token = some tt) :=
  c10_password_persisted_token_in_memory c10Auth c9Hook [] ("tok") (by decide)
